import Mathlib

/-!
# JWK aggregator: aggregation and cache

A shallow embedding of `jwk_aggregator.go` (package `main`): the package-level
cache (`cache`, `lastFetch`), `cacheValid`, `fetchKeys`, one round of
`cacheRefresher`, and the HTTP handler built by `registerHandlers`.

The outside world is explicit.  `http.Get` is an oracle that sees the list of
GET requests issued so far, so an origin may answer differently each time it is
asked; the two services of `encoding/json` the program uses, `json.Unmarshal` into
a `JWKSet` and the compaction the encoder applies to a `json.RawMessage`, are
parameters; the clock readings a call makes (`time.Since` in `cacheValid`,
`time.Now` at the commit) are arguments.
-/

namespace JwkAggregator

/-! ## Data model -/

/-- An origin URL (`string` in the source). -/
abbrev Origin := String

/-- The bytes of one key, `json.RawMessage` in the source; never inspected. -/
abbrev RawMessage := String

/-- A Go slice `[]json.RawMessage`.  The nil slice and an allocated slice of
length zero are different values: `encoding/json` writes the first as `null`
and the second as `[]`. -/
inductive KeySlice where
  | nil
  | mk (elems : List RawMessage)
  deriving DecidableEq, Repr

/-- The elements of a slice, in order. -/
def KeySlice.toList : KeySlice → List RawMessage
  | .nil => []
  | .mk elems => elems

/-- Go `len(s)`. -/
def KeySlice.len (s : KeySlice) : Nat := s.toList.length

/-- Go `append(s, xs...)`: with nothing to add the first operand comes back as
it is (a nil slice stays nil); otherwise the result is an allocated slice
holding the elements of `s` followed by those of `xs`. -/
def KeySlice.append (s xs : KeySlice) : KeySlice :=
  match xs.toList with
  | [] => s
  | x :: rest => .mk (s.toList ++ x :: rest)

/-- A set of JWK keys: `type JWKSet struct { Keys []json.RawMessage }`. -/
structure JWKSet where
  Keys : KeySlice
  deriving DecidableEq, Repr

/-- The zero value of `JWKSet`, what `var keys JWKSet` declares. -/
def JWKSet.zero : JWKSet := { Keys := .nil }

/-! ## Time -/

/-- An instant, in nanoseconds; `0` is the zero `time.Time`. -/
abbrev Time := Int

/-- A `time.Duration`, in nanoseconds. -/
abbrev Duration := Int

/-- Largest `time.Duration` (`1<<63 - 1`). -/
def maxDuration : Duration := 2 ^ 63 - 1

/-- Smallest `time.Duration` (`-1 << 63`). -/
def minDuration : Duration := -(2 ^ 63)

/-- Go `t.Sub(u)`: the difference, saturated to the range of `Duration`. -/
def timeSub (t u : Time) : Duration :=
  if t - u > maxDuration then maxDuration
  else if t - u < minDuration then minDuration
  else t - u

/-- Go `time.Since(t)` when the clock reads `now`. -/
def since (now t : Time) : Duration := timeSub now t

/-- Go `time.Minute`. -/
def Minute : Duration := 60 * 1000000000

/-- The duration `15*time.Minute` that `cacheValid` compares against and that
`registerHandlers` passes to `cacheRefresher`. -/
def window : Duration := 15 * Minute

/-! ## The outside world -/

/-- An `*http.Response`, as far as `fetchKeys` can see it: the status code
(never read by the source) and what `ioutil.ReadAll(resp.Body)` gives, `none`
when the read returns an error. -/
structure Response where
  StatusCode : Nat
  Body : Option String
  deriving DecidableEq, Repr

/-- What `http.Get(origin)` returns: an error, or a response.  A response with
a non-2xx status code is a response, not an error. -/
inductive GetResult where
  | err
  | ok (resp : Response)
  deriving DecidableEq, Repr

/-- The environment of the program: the network and the JSON library.
`httpGet hist origin` is the result of `http.Get(origin)` when `hist` lists the
GET requests issued before it.  `unmarshal body` is the `JWKSet` that
`json.Unmarshal(body, &keySet)` fills in, `none` when it returns an error.
`compact raw` is the text the encoder writes for one `json.RawMessage`: its
bytes with insignificant white space dropped and with `<`, `>`, `&`, U+2028 and
U+2029 written as `\u003c`, `\u003e`, `\u0026`, `\u2028` and `\u2029` (the
encoder escapes HTML by default); `none` when the bytes are not a JSON value,
in which case encoding fails. -/
structure Env where
  httpGet : List Origin → Origin → GetResult
  unmarshal : String → Option JWKSet
  compact : RawMessage → Option String

/-! ## Package state -/

/-- The package-level variables `cache` and `lastFetch` (guarded by
`cacheLock`), together with the log of GET requests issued so far. -/
structure State where
  cache : JWKSet
  lastFetch : Time
  requests : List Origin
  deriving DecidableEq, Repr

/-- State at process start: zero-valued `cache` and `lastFetch`, no request
issued. -/
def State.init : State := { cache := JWKSet.zero, lastFetch := 0, requests := [] }

/-- The `*JWKSet` that `fetchKeys` returns: either `&cache`, the address of the
package-level variable, or `&keys`, the address of the local it has just
filled. -/
inductive KeysPtr where
  | cache
  | keys (local_ : JWKSet)
  deriving DecidableEq, Repr

/-- Reading through a returned pointer in state `st`. -/
def KeysPtr.deref (st : State) : KeysPtr → JWKSet
  | .cache => st.cache
  | .keys v => v

/-! ## `cacheValid` and `fetchKeys` -/

/-- Source `cacheValid`: `time.Since(lastFetch) < 15*time.Minute`. -/
def cacheValid (st : State) (now : Time) : Bool :=
  decide (since now st.lastFetch < window)

/-- One pass through the body of the `for _, origin := range origins` loop of
`fetchKeys`: the three `continue` branches leave `keys` as it is, the last line
appends the origin's keys. -/
def fetchOrigin (env : Env) (hist : List Origin) (keys : JWKSet) (origin : Origin) : JWKSet :=
  match env.httpGet hist origin with
  | .err => keys
  | .ok resp =>
    match resp.Body with
    | none => keys
    | some body =>
      match env.unmarshal body with
      | none => keys
      | some keySet => { Keys := keys.Keys.append keySet.Keys }

/-- The loop of `fetchKeys` over the remaining origins: returns the final value
of `keys` and the request log. -/
def fetchLoop (env : Env) : List Origin → List Origin → JWKSet → JWKSet × List Origin
  | [], hist, keys => (keys, hist)
  | origin :: rest, hist, keys =>
    fetchLoop env rest (hist ++ [origin]) (fetchOrigin env hist keys origin)

/-- Source `fetchKeys`.  `now` is the clock reading of `cacheValid`, `done` the
reading of `time.Now()` at the commit.  Returns the pointer, the error (always
`nil`) and the state after the call. -/
def fetchKeys (env : Env) (origins : List Origin) (now done : Time) (st : State) :
    (KeysPtr × Option String) × State :=
  if cacheValid st now then
    ((.cache, none), st)
  else
    let r := fetchLoop env origins st.requests JWKSet.zero
    ((.keys r.1, none), { cache := r.1, lastFetch := done, requests := r.2 })

/-- The body of the `for` loop of `cacheRefresher` after `time.Sleep(interval)`
has returned at time `wake`: a call of `fetchKeys` whose result is dropped. -/
def refresherRound (env : Env) (origins : List Origin) (wake done : Time) (st : State) : State :=
  (fetchKeys env origins wake done st).2

/-! ## The HTTP handler -/

/-- What a handler writes to its `http.ResponseWriter`. -/
structure HttpReply where
  status : Nat
  contentType : Option String
  body : String
  deriving DecidableEq, Repr

/-- The text `json.NewEncoder(w).Encode(keys)` writes for a `*JWKSet`, `none`
when `Encode` returns an error and writes nothing.  The member `keys` is `null`
for a nil slice and a JSON array otherwise; each element is written compacted
and HTML-escaped, and an element that is not a JSON value makes the whole
encoding fail; the encoder ends the document with a newline. -/
def encode (env : Env) (v : JWKSet) : Option String :=
  match v.Keys with
  | .nil => some "\x7b\"keys\":null\x7d\n"
  | .mk elems =>
    match elems.mapM env.compact with
    | none => none
    | some texts => some ("\x7b\"keys\":[" ++ ",".intercalate texts ++ "]\x7d\n")

/-- The handler returned by `registerHandlers`, with `h` the wrapped handler.
The pointer returned by `fetchKeys` is read by the encoder after the call.  The
error of `Encode` is dropped by the source: when encoding fails the reply keeps
its header and has an empty body. -/
def handler (env : Env) (origins : List Origin) (h : String → HttpReply) (path : String)
    (now done : Time) (st : State) : HttpReply × State :=
  if path ≠ "/jwk-aggregator" then
    (h path, st)
  else
    match fetchKeys env origins now done st with
    | ((_, some err), st') =>
      ({ status := 500, contentType := some "text/plain; charset=utf-8", body := err ++ "\n" }, st')
    | ((keys, none), st') =>
      ({ status := 200, contentType := some "application/json",
         body := (encode env (keys.deref st')).getD "" },
       st')

/-! ## The merge, in the words of the specification -/

/-- The key list an origin contributes when its fetch, the read of its body
and the parse all succeed; `none` when any of the three fails. -/
def successKeys (env : Env) (hist : List Origin) (origin : Origin) : Option (List RawMessage) :=
  match env.httpGet hist origin with
  | .err => none
  | .ok resp =>
    match resp.Body with
    | none => none
    | some body =>
      match env.unmarshal body with
      | none => none
      | some keySet => some keySet.Keys.toList

/-- Each origin of the list, in order, paired with the request log at the
moment it is fetched. -/
def attempts : List Origin → List Origin → List (List Origin × Origin)
  | _, [] => []
  | hist, origin :: rest => (hist, origin) :: attempts (hist ++ [origin]) rest

/-- Concatenation, in origin-list order, of the key lists of the origins that
succeeded. -/
def mergedKeys (env : Env) (hist : List Origin) (origins : List Origin) : List RawMessage :=
  ((attempts hist origins).filterMap (fun a => successKeys env a.1 a.2)).flatten

/-! ## Request path and background refresher together -/

/-- The running plugin with background refresh enabled, in the sequential
model: fetches take no time and `time.Sleep` returns exactly on time.  `now` is
the time of the last event, `wake` the time at which the refresher's current
`time.Sleep(interval)` returns, `ticks` the number of refresher rounds so far. -/
structure Sys where
  st : State
  now : Time
  wake : Time
  ticks : Nat
  deriving DecidableEq, Repr

/-- The plugin right after `registerHandlers` has run `go cacheRefresher(originStrings, 15*time.Minute)`
at time `t0`: the refresher is in its first sleep. -/
def Sys.start (t0 : Time) : Sys :=
  { st := State.init, now := t0, wake := t0 + window, ticks := 0 }

/-- An event of the running plugin: a request for `/jwk-aggregator` arriving at
time `t`, or the refresher waking up. -/
inductive Event where
  | request (t : Time)
  | tick
  deriving DecidableEq, Repr

/-- One event.  A request may arrive at any time from the last event up to the
next wake-up; it calls `fetchKeys`.  A tick happens at `wake`, runs one round
of `cacheRefresher` and starts the next sleep. -/
def Sys.step (env : Env) (origins : List Origin) (s : Sys) : Event → Option Sys
  | .request t =>
    if s.now ≤ t ∧ t ≤ s.wake then
      some { s with st := (fetchKeys env origins t t s.st).2, now := t }
    else none
  | .tick =>
    some { st := refresherRound env origins s.wake s.wake s.st,
           now := s.wake, wake := s.wake + window, ticks := s.ticks + 1 }

/-- A sequence of events, `none` when one of them is not enabled. -/
def Sys.run (env : Env) (origins : List Origin) : Sys → List Event → Option Sys
  | s, [] => some s
  | s, e :: rest =>
    match s.step env origins e with
    | none => none
    | some s' => Sys.run env origins s' rest

/-- What every run of the plugin preserves: the next wake-up is at most one
interval ahead, and once the refresher has ticked the cache is less than two
intervals old at the next wake-up. -/
def Sys.Inv (s : Sys) : Prop :=
  s.now ≤ s.wake ∧ s.wake - s.now ≤ window
    ∧ (1 ≤ s.ticks → s.wake - s.st.lastFetch < 2 * window)

/-! ## Concurrent calls -/

/-- Where one caller of `fetchKeys` stands.  `entry`: about to call
`cacheValid`.  `loop rest keys`: on the stale path, with `rest` still to fetch.
`holding seen`: `cacheValid` answered true on the `lastFetch` value `seen` and
`&cache` has been returned, not yet read.  `finished got stamp`: the caller has
read the set `got` through the pointer; `stamp` is the `lastFetch` value that
goes with it (the one its freshness check used, or the one it committed). -/
inductive Pc where
  | entry
  | loop (rest : List Origin) (keys : JWKSet)
  | holding (seen : Time)
  | finished (got : JWKSet) (stamp : Time)
  deriving DecidableEq, Repr

/-- Several callers sharing the package state.  `commits` lists the pairs
written by the locked section of `fetchKeys`, one per aggregation run. -/
structure Conc where
  st : State
  now : Time
  commits : List (JWKSet × Time)
  threads : List Pc
  deriving DecidableEq, Repr

/-- The next atomic action of one caller: the locked `cacheValid`; one loop
iteration (no shared variable touched, one GET issued); the locked commit
followed by the return of `&keys`; the read through `&cache` on the fresh
path, with no lock held. -/
def Conc.act (env : Env) (origins : List Origin) (c : Conc) : Pc → Conc × Pc
  | .entry =>
    if cacheValid c.st c.now then (c, .holding c.st.lastFetch)
    else (c, .loop origins JWKSet.zero)
  | .loop (origin :: rest) keys =>
    ({ c with st := { c.st with requests := c.st.requests ++ [origin] } },
     .loop rest (fetchOrigin env c.st.requests keys origin))
  | .loop [] keys =>
    ({ c with st := { c.st with cache := keys, lastFetch := c.now },
              commits := c.commits ++ [(keys, c.now)] },
     .finished keys c.now)
  | .holding seen => (c, .finished c.st.cache seen)
  | .finished got stamp => (c, .finished got stamp)

/-- A scheduler choice: let time pass, or let caller `i` take its next action. -/
inductive Sched where
  | advance (d : Nat)
  | run (i : Nat)
  deriving DecidableEq, Repr

/-- One scheduler choice. -/
def Conc.step (env : Env) (origins : List Origin) (c : Conc) : Sched → Conc
  | .advance d => { c with now := c.now + d }
  | .run i =>
    match c.threads.get? i with
    | none => c
    | some pc =>
      let r := Conc.act env origins c pc
      { r.1 with threads := r.1.threads.set i r.2 }

/-- A whole schedule. -/
def Conc.exec (env : Env) (origins : List Origin) (c : Conc) (sched : List Sched) : Conc :=
  sched.foldl (Conc.step env origins) c

/-- The configuration with `n` callers about to enter `fetchKeys` at time `t0`, on
the state of process start. -/
def Conc.start (t0 : Time) (n : Nat) : Conc :=
  { st := State.init, now := t0, commits := [], threads := List.replicate n Pc.entry }

/-- Every caller that has read its result holds a set and a timestamp written
together: by one and the same aggregation run, or the zero values of process
start. -/
def Conc.paired (c : Conc) : Prop :=
  ∀ got stamp, Pc.finished got stamp ∈ c.threads →
    (got, stamp) ∈ (JWKSet.zero, (0 : Time)) :: c.commits

/-! ## Sample environment -/

/-- Sample key `{"kid":"k1"}`. -/
def k1 : RawMessage := "\x7b\"kid\":\"k1\"\x7d"

/-- Sample key `{"kid":"k2"}`. -/
def k2 : RawMessage := "\x7b\"kid\":\"k2\"\x7d"

/-- Sample key `{"kid":"k3"}`. -/
def k3 : RawMessage := "\x7b\"kid\":\"k3\"\x7d"

/-- Sample key `{"kid": "a<b"}`, with a blank after the colon and a `<` inside
the string. -/
def k4 : RawMessage := "\x7b\"kid\": \"a<b\"\x7d"

/-- The document `{"keys":[k]}`. -/
def docOf (k : RawMessage) : String := "\x7b\"keys\":[" ++ k ++ "]\x7d"

/-- The document `{"keys":[]}`. -/
def docEmpty : String := "\x7b\"keys\":[]\x7d"

/-- What `json.Unmarshal` into a `JWKSet` gives on the sample documents; any
other body used below is not JSON. -/
def sampleUnmarshal (body : String) : Option JWKSet :=
  if body = docOf k1 then some { Keys := .mk [k1] }
  else if body = docOf k2 then some { Keys := .mk [k2] }
  else if body = docOf k3 then some { Keys := .mk [k3] }
  else if body = docOf k4 then some { Keys := .mk [k4] }
  else if body = docEmpty then some { Keys := .mk [] }
  else none

/-- What the encoder writes for each sample key: `k1`, `k2` and `k3` are
compact already and hold nothing to escape; in `k4` the blank goes and `<`
becomes `\u003c`.  No other key is encoded below. -/
def sampleCompact (raw : RawMessage) : Option String :=
  if raw = k1 then some k1
  else if raw = k2 then some k2
  else if raw = k3 then some k3
  else if raw = k4 then some "\x7b\"kid\":\"a\\u003cb\"\x7d"
  else none

/-- Origin A serves `{"keys":[k1]}` with status 200. -/
def originA : Origin := "https://a.example/jwks"

/-- Origin B refuses the connection. -/
def originB : Origin := "https://b.example/jwks"

/-- Origin C serves `{"keys":[k3]}` with status 200. -/
def originC : Origin := "https://c.example/jwks"

/-- Origin D answers 404 Not Found with the body `{"keys":[k1]}`. -/
def originD : Origin := "https://d.example/jwks"

/-- Origin E serves `{"keys":[]}` with status 200. -/
def originE : Origin := "https://e.example/jwks"

/-- Origin F serves `{"keys":[k4]}` with status 200. -/
def originF : Origin := "https://f.example/jwks"

/-- Origin R serves `{"keys":[k1]}` the first time it is asked and
`{"keys":[k2]}` from then on. -/
def originR : Origin := "https://r.example/jwks"

/-- The sample network. -/
def sampleGet (hist : List Origin) (origin : Origin) : GetResult :=
  if origin = originA then .ok { StatusCode := 200, Body := some (docOf k1) }
  else if origin = originC then .ok { StatusCode := 200, Body := some (docOf k3) }
  else if origin = originD then .ok { StatusCode := 404, Body := some (docOf k1) }
  else if origin = originE then .ok { StatusCode := 200, Body := some docEmpty }
  else if origin = originF then .ok { StatusCode := 200, Body := some (docOf k4) }
  else if origin = originR then
    if originR ∈ hist then .ok { StatusCode := 200, Body := some (docOf k2) }
    else .ok { StatusCode := 200, Body := some (docOf k1) }
  else .err

/-- The sample environment. -/
def sampleEnv : Env :=
  { httpGet := sampleGet, unmarshal := sampleUnmarshal, compact := sampleCompact }

/-- A network on which no origin ever changes its answer: every request is
answered as the sample network answers a first request. -/
def steadyEnv : Env :=
  { httpGet := fun _ origin => sampleGet [] origin, unmarshal := sampleUnmarshal,
    compact := sampleCompact }

/-- A sample process start time, in nanoseconds since the zero `time.Time`
(a date in the year 2025). -/
def T0 : Time := 63900000000000000000

/-- A schedule of three callers, all entering at start-up.  Callers 0 and 1
both find the cache stale.  Caller 0 fetches and commits.  One nanosecond later
caller 2 finds the cache fresh and is handed `&cache`.  Caller 1 then fetches
and commits, and only after that caller 2 reads through its pointer. -/
def racySchedule : List Sched :=
  [.run 0, .run 1, .run 0, .run 0, .advance 1, .run 2, .run 1, .advance 1, .run 1, .run 2]

/-- The wrapped handler of the samples: answers 404 to everything. -/
def notFound (_ : String) : HttpReply :=
  { status := 404, contentType := none, body := "404 page not found\n" }

/-! ## Basic facts -/

theorem window_eq : window = 900000000000 := by
  simp [window, Minute]

theorem since_lt_window_iff (now t : Time) : since now t < window ↔ now - t < window := by
  unfold since timeSub
  rw [window_eq]
  simp only [maxDuration, minDuration]
  unfold Duration Time at *
  split_ifs <;> omega

theorem cacheValid_iff (st : State) (now : Time) :
    cacheValid st now = true ↔ now - st.lastFetch < window := by
  simp [cacheValid, since_lt_window_iff]

theorem cacheValid_false_iff (st : State) (now : Time) :
    cacheValid st now = false ↔ window ≤ now - st.lastFetch := by
  rw [← Bool.not_eq_true, cacheValid_iff]
  unfold Duration Time at *
  omega

theorem KeySlice.toList_append (s xs : KeySlice) :
    (s.append xs).toList = s.toList ++ xs.toList := by
  unfold KeySlice.append
  cases h : xs.toList with
  | nil => simp
  | cons x rest => simp [KeySlice.toList]

theorem fetchOrigin_toList (env : Env) (hist : List Origin) (keys : JWKSet) (origin : Origin) :
    (fetchOrigin env hist keys origin).Keys.toList
      = keys.Keys.toList ++ (successKeys env hist origin).getD [] := by
  unfold fetchOrigin successKeys
  cases env.httpGet hist origin with
  | err => simp
  | ok resp =>
    obtain ⟨code, body⟩ := resp
    cases body with
    | none => simp
    | some body =>
      cases h : env.unmarshal body with
      | none => simp [h]
      | some keySet => simp [h, KeySlice.toList_append]

theorem mergedKeys_nil (env : Env) (hist : List Origin) : mergedKeys env hist [] = [] := by
  simp [mergedKeys, attempts]

theorem mergedKeys_cons (env : Env) (hist : List Origin) (origin : Origin) (rest : List Origin) :
    mergedKeys env hist (origin :: rest)
      = (successKeys env hist origin).getD [] ++ mergedKeys env (hist ++ [origin]) rest := by
  unfold mergedKeys
  simp only [attempts, List.filterMap_cons]
  cases successKeys env hist origin <;> simp

theorem fetchLoop_keys (env : Env) (origins : List Origin) :
    ∀ (hist : List Origin) (keys : JWKSet),
      (fetchLoop env origins hist keys).1.Keys.toList
        = keys.Keys.toList ++ mergedKeys env hist origins := by
  induction origins with
  | nil => intro hist keys; simp [fetchLoop, mergedKeys_nil]
  | cons origin rest ih =>
    intro hist keys
    simp only [fetchLoop]
    rw [ih, fetchOrigin_toList, mergedKeys_cons, List.append_assoc]

theorem fetchLoop_requests (env : Env) (origins : List Origin) :
    ∀ (hist : List Origin) (keys : JWKSet),
      (fetchLoop env origins hist keys).2 = hist ++ origins := by
  induction origins with
  | nil => intro hist keys; simp [fetchLoop]
  | cons origin rest ih =>
    intro hist keys
    simp only [fetchLoop]
    rw [ih]; simp

theorem fetchKeys_fresh (env : Env) (origins : List Origin) (now done : Time) (st : State)
    (h : cacheValid st now = true) :
    fetchKeys env origins now done st = ((.cache, none), st) := by
  simp [fetchKeys, h]

theorem fetchKeys_stale (env : Env) (origins : List Origin) (now done : Time) (st : State)
    (h : cacheValid st now = false) :
    fetchKeys env origins now done st
      = ((.keys (fetchLoop env origins st.requests JWKSet.zero).1, none),
         { cache := (fetchLoop env origins st.requests JWKSet.zero).1, lastFetch := done,
           requests := st.requests ++ origins }) := by
  simp [fetchKeys, h, fetchLoop_requests]

theorem fetchKeys_stale_toList (env : Env) (origins : List Origin) (now done : Time) (st : State)
    (hstale : cacheValid st now = false) :
    ((fetchKeys env origins now done st).1.1.deref (fetchKeys env origins now done st).2).Keys.toList
      = mergedKeys env st.requests origins := by
  rw [fetchKeys_stale env origins now done st hstale]
  simp only [KeysPtr.deref]
  rw [fetchLoop_keys]
  simp [JWKSet.zero, KeySlice.toList]

/-! ## C1 -/

/-- C1 (merge order): when the cache is stale, the key sequence `fetchKeys`
returns is the concatenation, in origin-list order, of the key lists of exactly
the origins whose fetch, body read and parse all succeeded, each in its own
order; a failed origin contributes nothing. -/
theorem fetchKeys_merge_order (env : Env) (origins : List Origin) (now done : Time) (st : State)
    (hstale : cacheValid st now = false) :
    ((fetchKeys env origins now done st).1.1.deref (fetchKeys env origins now done st).2).Keys.toList
      = mergedKeys env st.requests origins := by
  exact fetchKeys_stale_toList env origins now done st hstale

/-- Instance of C1 at the sample origins `[A, B, C]`, from the initial state. -/
theorem fetchKeys_merge_order_witness :
    cacheValid State.init T0 = false ∧
    ((fetchKeys sampleEnv [originA, originB, originC] T0 T0 State.init).1.1.deref
        (fetchKeys sampleEnv [originA, originB, originC] T0 T0 State.init).2).Keys.toList
      = mergedKeys sampleEnv State.init.requests [originA, originB, originC] :=
  ⟨by decide, fetchKeys_merge_order sampleEnv [originA, originB, originC] T0 T0 State.init (by decide)⟩

/-- The example of the specification: origins `[A, B, C]` with A giving `[k1]`, B failing and C
giving `[k3]` merge to `[k1, k3]`. -/
theorem mergedKeys_sample : mergedKeys sampleEnv [] [originA, originB, originC] = [k1, k3] := by
  decide

/-! ## C2 -/

/-- C2 (freshness gating): `fetchKeys` issues no GET and returns `&cache`, the
currently cached set, exactly when the time elapsed since `lastFetch` is strictly
below the 15-minute window; otherwise, an elapsed time equal to the window
included, it fetches every configured origin once, in list order, and returns
the newly aggregated set. -/
theorem fetchKeys_freshness_gating (env : Env) (origins : List Origin) (now done : Time)
    (st : State) :
    (((fetchKeys env origins now done st).1.1 = KeysPtr.cache
        ∧ (fetchKeys env origins now done st).2.requests = st.requests)
      ↔ now - st.lastFetch < window)
    ∧ (now - st.lastFetch < window →
        (fetchKeys env origins now done st).2.requests = st.requests
        ∧ (fetchKeys env origins now done st).1.1.deref (fetchKeys env origins now done st).2
            = st.cache)
    ∧ (window ≤ now - st.lastFetch →
        (fetchKeys env origins now done st).2.requests = st.requests ++ origins
        ∧ (fetchKeys env origins now done st).1.1
            = KeysPtr.keys (fetchLoop env origins st.requests JWKSet.zero).1
        ∧ ((fetchKeys env origins now done st).1.1.deref
              (fetchKeys env origins now done st).2).Keys.toList
            = mergedKeys env st.requests origins) := by
  refine ⟨⟨fun h => ?_, fun h => ?_⟩, fun h => ?_, fun h => ?_⟩
  · by_contra hlt
    have hst : cacheValid st now = false := by
      rw [cacheValid_false_iff]; unfold Duration Time at *; omega
    rw [fetchKeys_stale env origins now done st hst] at h
    exact absurd h.1 (by simp)
  · rw [fetchKeys_fresh env origins now done st ((cacheValid_iff st now).2 h)]
    exact ⟨rfl, rfl⟩
  · rw [fetchKeys_fresh env origins now done st ((cacheValid_iff st now).2 h)]
    exact ⟨rfl, rfl⟩
  · have hst : cacheValid st now = false := (cacheValid_false_iff st now).2 h
    refine ⟨?_, ?_, fetchKeys_stale_toList env origins now done st hst⟩
    · rw [fetchKeys_stale env origins now done st hst]
    · rw [fetchKeys_stale env origins now done st hst]

/-- Instance of C2 on both sides of the boundary: one nanosecond short of the
window nothing is fetched, at exactly the window the origins are fetched. -/
theorem fetchKeys_freshness_gating_witness :
    ((fetchKeys sampleEnv [originA, originC] (T0 + window - 1) (T0 + window - 1)
        { cache := JWKSet.zero, lastFetch := T0, requests := [] }).2.requests = []
      ∧ (fetchKeys sampleEnv [originA, originC] (T0 + window - 1) (T0 + window - 1)
          { cache := JWKSet.zero, lastFetch := T0, requests := [] }).1.1.deref
          (fetchKeys sampleEnv [originA, originC] (T0 + window - 1) (T0 + window - 1)
            { cache := JWKSet.zero, lastFetch := T0, requests := [] }).2 = JWKSet.zero)
    ∧ (fetchKeys sampleEnv [originA, originC] (T0 + window) (T0 + window)
        { cache := JWKSet.zero, lastFetch := T0, requests := [] }).2.requests
        = [] ++ [originA, originC] :=
  ⟨(fetchKeys_freshness_gating sampleEnv [originA, originC] (T0 + window - 1) (T0 + window - 1)
      { cache := JWKSet.zero, lastFetch := T0, requests := [] }).2.1 (by decide),
   ((fetchKeys_freshness_gating sampleEnv [originA, originC] (T0 + window) (T0 + window)
      { cache := JWKSet.zero, lastFetch := T0, requests := [] }).2.2 (by decide)).1⟩

/-! ## C3 -/

theorem mergedKeys_all_fail (env : Env) (origins : List Origin) :
    ∀ hist : List Origin,
      (∀ a ∈ attempts hist origins, successKeys env a.1 a.2 = none) →
      mergedKeys env hist origins = [] := by
  induction origins with
  | nil => intro hist _; exact mergedKeys_nil env hist
  | cons origin rest ih =>
    intro hist hall
    rw [mergedKeys_cons, ih (hist ++ [origin]) (fun a ha => hall a (by simp [attempts, ha]))]
    have := hall (hist, origin) (by simp [attempts])
    simp at this
    simp [this]

theorem fetchKeys_err (env : Env) (origins : List Origin) (now done : Time) (st : State) :
    (fetchKeys env origins now done st).1.2 = none := by
  unfold fetchKeys
  split <;> rfl

/-- C3 (aggregation never fails): `fetchKeys` always returns a nil error, so
the handler answers a request for `/jwk-aggregator` with status 200 and never
takes its 500 branch; and when the cache is stale and every origin fails, the
returned set has zero keys. -/
theorem fetchKeys_never_fails (env : Env) (origins : List Origin) (now done : Time) (st : State)
    (h : String → HttpReply) :
    (fetchKeys env origins now done st).1.2 = none
    ∧ (handler env origins h "/jwk-aggregator" now done st).1.status = 200
    ∧ (cacheValid st now = false →
        (∀ a ∈ attempts st.requests origins, successKeys env a.1 a.2 = none) →
        ((fetchKeys env origins now done st).1.1.deref
            (fetchKeys env origins now done st).2).Keys.len = 0) := by
  refine ⟨fetchKeys_err env origins now done st, ?_, fun hst hall => ?_⟩
  · have herr := fetchKeys_err env origins now done st
    unfold handler
    simp only [ne_eq, not_true_eq_false, if_false]
    generalize fetchKeys env origins now done st = r at herr
    obtain ⟨⟨p, e⟩, st'⟩ := r
    simp only at herr
    subst herr
    rfl
  · unfold KeySlice.len
    rw [fetchKeys_stale_toList env origins now done st hst,
      mergedKeys_all_fail env origins st.requests hall]
    rfl

/-- Instance of C3 with origin B alone, which refuses the connection. -/
theorem fetchKeys_never_fails_witness :
    ((fetchKeys sampleEnv [originB] T0 T0 State.init).1.1.deref
        (fetchKeys sampleEnv [originB] T0 T0 State.init).2).Keys.len = 0 :=
  (fetchKeys_never_fails sampleEnv [originB] T0 T0 State.init notFound).2.2 (by decide)
    (by decide)

/-! ## C4 -/

/-- C4 (cache commit and frame): a call on the stale path leaves `cache` equal
to the set it returns and `lastFetch` equal to the time of the commit; a call
on the fresh path leaves the whole state as it was; so whenever `cache` or
`lastFetch` differs after a call, that call ran an aggregation over all the
origins. -/
theorem fetchKeys_commit_frame (env : Env) (origins : List Origin) (now done : Time)
    (st : State) :
    (cacheValid st now = false →
        (fetchKeys env origins now done st).2.cache
            = (fetchKeys env origins now done st).1.1.deref (fetchKeys env origins now done st).2
        ∧ (fetchKeys env origins now done st).1.1
            = KeysPtr.keys (fetchKeys env origins now done st).2.cache
        ∧ (fetchKeys env origins now done st).2.lastFetch = done)
    ∧ (cacheValid st now = true → (fetchKeys env origins now done st).2 = st)
    ∧ ((fetchKeys env origins now done st).2.cache ≠ st.cache
          ∨ (fetchKeys env origins now done st).2.lastFetch ≠ st.lastFetch →
        cacheValid st now = false
        ∧ (fetchKeys env origins now done st).2.requests = st.requests ++ origins) := by
  refine ⟨fun hst => ?_, fun hfr => ?_, fun hne => ?_⟩
  · rw [fetchKeys_stale env origins now done st hst]
    exact ⟨rfl, rfl, rfl⟩
  · rw [fetchKeys_fresh env origins now done st hfr]
  · cases hv : cacheValid st now with
    | true =>
      rw [fetchKeys_fresh env origins now done st hv] at hne
      simp at hne
    | false =>
      rw [fetchKeys_stale env origins now done st hv]
      exact ⟨rfl, rfl⟩

/-- Instance of C4: a stale call from the initial state, and a fresh call one
second after a commit. -/
theorem fetchKeys_commit_frame_witness :
    (fetchKeys sampleEnv [originA] T0 (T0 + 5) State.init).2.lastFetch = T0 + 5
    ∧ (fetchKeys sampleEnv [originA] (T0 + 1000000000) (T0 + 1000000000)
        { cache := { Keys := .mk [k1] }, lastFetch := T0, requests := [originA] }).2
        = { cache := { Keys := .mk [k1] }, lastFetch := T0, requests := [originA] } :=
  ⟨((fetchKeys_commit_frame sampleEnv [originA] T0 (T0 + 5) State.init).1 (by decide)).2.2,
   (fetchKeys_commit_frame sampleEnv [originA] (T0 + 1000000000) (T0 + 1000000000)
      { cache := { Keys := .mk [k1] }, lastFetch := T0, requests := [originA] }).2.1 (by decide)⟩

/-! ## C6 -/

theorem fetchOrigin_hist (env : Env) (hconst : ∀ h h' o, env.httpGet h o = env.httpGet h' o)
    (h h' : List Origin) (keys : JWKSet) (origin : Origin) :
    fetchOrigin env h keys origin = fetchOrigin env h' keys origin := by
  unfold fetchOrigin
  rw [hconst h h' origin]

theorem fetchLoop_hist (env : Env) (hconst : ∀ h h' o, env.httpGet h o = env.httpGet h' o)
    (origins : List Origin) :
    ∀ (h h' : List Origin) (keys : JWKSet),
      (fetchLoop env origins h keys).1 = (fetchLoop env origins h' keys).1 := by
  induction origins with
  | nil => intro h h' keys; rfl
  | cons origin rest ih =>
    intro h h' keys
    simp only [fetchLoop]
    rw [fetchOrigin_hist env hconst h h' keys origin]
    exact ih _ _ _

/-- C6 (idempotent re-fetch): when no origin changes its answer between
requests, two successive `fetchKeys` calls starting from a stale cache return
the same keys in the same order, whether the second call takes the fresh path
or aggregates again. -/
theorem fetchKeys_idempotent (env : Env) (origins : List Origin) (t1 d1 t2 d2 : Time)
    (st : State) (hstale : cacheValid st t1 = false)
    (hconst : ∀ h h' o, env.httpGet h o = env.httpGet h' o) :
    ((fetchKeys env origins t1 d1 st).1.1.deref (fetchKeys env origins t1 d1 st).2).Keys
      = ((fetchKeys env origins t2 d2 (fetchKeys env origins t1 d1 st).2).1.1.deref
          (fetchKeys env origins t2 d2 (fetchKeys env origins t1 d1 st).2).2).Keys := by
  rw [fetchKeys_stale env origins t1 d1 st hstale]
  simp only [KeysPtr.deref]
  generalize hst1 : State.mk (fetchLoop env origins st.requests JWKSet.zero).1 d1
    (st.requests ++ origins) = st1
  have hc : st1.cache = (fetchLoop env origins st.requests JWKSet.zero).1 := by
    rw [← hst1]
  cases hv : cacheValid st1 t2 with
  | true =>
    rw [fetchKeys_fresh env origins t2 d2 st1 hv]
    simp only [KeysPtr.deref]
    rw [hc]
  | false =>
    rw [fetchKeys_stale env origins t2 d2 st1 hv]
    simp only [KeysPtr.deref]
    rw [fetchLoop_hist env hconst origins st.requests st1.requests]

/-- Instance of C6 on the steady network: a call at start-up and a second call
one nanosecond later. -/
theorem fetchKeys_idempotent_witness :
    ((fetchKeys steadyEnv [originA, originB, originC] T0 T0 State.init).1.1.deref
        (fetchKeys steadyEnv [originA, originB, originC] T0 T0 State.init).2).Keys
      = ((fetchKeys steadyEnv [originA, originB, originC] (T0 + 1) (T0 + 1)
            (fetchKeys steadyEnv [originA, originB, originC] T0 T0 State.init).2).1.1.deref
          (fetchKeys steadyEnv [originA, originB, originC] (T0 + 1) (T0 + 1)
            (fetchKeys steadyEnv [originA, originB, originC] T0 T0 State.init).2).2).Keys :=
  fetchKeys_idempotent steadyEnv [originA, originB, originC] T0 T0 (T0 + 1) (T0 + 1) State.init
    (by decide) (fun _ _ _ => rfl)

/-! ## C9 -/

/-- C9, counterexample: origin D answers 404 with a body that parses as a
JWKSet holding `k1`; `fetchKeys` over `[D]` returns `k1`. -/
theorem nonsuccess_status_contributes :
    sampleEnv.httpGet [] originD = .ok { StatusCode := 404, Body := some (docOf k1) }
    ∧ ((fetchKeys sampleEnv [originD] T0 T0 State.init).1.1.deref
        (fetchKeys sampleEnv [originD] T0 T0 State.init).2).Keys = .mk [k1] := by
  decide

/-- C9, amended: the status code of a response is never examined, so a
non-success response is not a fetch failure.  An origin whose `http.Get` returns
an error adds no keys; an origin whose response, whatever its status code, has
a body that cannot be read or that does not parse adds no keys; and an origin
whose response, whatever its status code (a non-success one included), has a
body that reads and parses as a JWKSet document adds the keys of that document,
in order, after the keys merged so far. -/
theorem fetchOrigin_status_blind (env : Env) (hist : List Origin) (keys : JWKSet)
    (origin : Origin) :
    (env.httpGet hist origin = .err → fetchOrigin env hist keys origin = keys)
    ∧ (∀ code, env.httpGet hist origin = .ok { StatusCode := code, Body := none } →
        fetchOrigin env hist keys origin = keys)
    ∧ (∀ code body, env.httpGet hist origin = .ok { StatusCode := code, Body := some body } →
        env.unmarshal body = none → fetchOrigin env hist keys origin = keys)
    ∧ (∀ code body keySet,
        env.httpGet hist origin = .ok { StatusCode := code, Body := some body } →
        env.unmarshal body = some keySet →
        (fetchOrigin env hist keys origin).Keys.toList = keys.Keys.toList ++ keySet.Keys.toList) := by
  refine ⟨fun h => ?_, fun code h => ?_, fun code body h hu => ?_, fun code body keySet h hu => ?_⟩
  · simp [fetchOrigin, h]
  · simp [fetchOrigin, h]
  · simp [fetchOrigin, h, hu]
  · simp [fetchOrigin, h, hu, KeySlice.toList_append]

/-- Instance of the amended C9 at origin D: status 404, keys added. -/
theorem fetchOrigin_status_blind_witness :
    (fetchOrigin sampleEnv [] JWKSet.zero originD).Keys.toList
      = JWKSet.zero.Keys.toList ++ (JWKSet.mk (.mk [k1])).Keys.toList :=
  (fetchOrigin_status_blind sampleEnv [] JWKSet.zero originD).2.2.2 404 (docOf k1)
    { Keys := .mk [k1] } (by decide) (by decide)

/-! ## C10 -/

theorem fetchLoop_no_keys (env : Env) (origins : List Origin) :
    ∀ (hist : List Origin) (keys : JWKSet),
      mergedKeys env hist origins = [] → (fetchLoop env origins hist keys).1 = keys := by
  induction origins with
  | nil => intro hist keys _; rfl
  | cons origin rest ih =>
    intro hist keys hm
    rw [mergedKeys_cons, List.append_eq_nil] at hm
    simp only [fetchLoop]
    rw [ih _ _ hm.2]
    have h1 := hm.1
    unfold successKeys at h1
    unfold fetchOrigin
    cases hg : env.httpGet hist origin with
    | err => rfl
    | ok resp =>
      obtain ⟨code, body⟩ := resp
      cases body with
      | none => rfl
      | some body =>
        cases hu : env.unmarshal body with
        | none => simp [hu]
        | some keySet =>
          simp only [hg, hu, Option.getD_some] at h1
          simp [hu, KeySlice.append, h1]

/-- Whenever a stale call aggregates zero keys, whatever the reason, the
handler writes `null` under `keys`. -/
theorem handler_no_keys (env : Env) (origins : List Origin) (h : String → HttpReply)
    (now done : Time) (st : State) (hstale : cacheValid st now = false)
    (hm : mergedKeys env st.requests origins = []) :
    (handler env origins h "/jwk-aggregator" now done st).1.body = "\x7b\"keys\":null\x7d\n" := by
  unfold handler
  simp only [ne_eq, not_true_eq_false, if_false]
  rw [fetchKeys_stale env origins now done st hstale, fetchLoop_no_keys env origins _ _ hm]
  rfl

/-- The handler on origin F, whose key holds a blank outside its string and a
`<` inside it: the body carries the key compacted and escaped. -/
theorem handler_escapes_html :
    (handler sampleEnv [originF] notFound "/jwk-aggregator" T0 T0 State.init).1.body
      = "\x7b\"keys\":[\x7b\"kid\":\"a\\u003cb\"\x7d]\x7d\n" := by
  decide

/-- C10, the code at the failing inputs: with every origin unreachable (`[B]`),
and with an origin that serves an empty key list (`[E]`), the handler answers
`/jwk-aggregator` with the body `{"keys":null}`; with keys to serve it writes
them as an array. -/
theorem handler_empty_writes_null :
    (handler sampleEnv [originB] notFound "/jwk-aggregator" T0 T0 State.init).1
      = { status := 200, contentType := some "application/json",
          body := "\x7b\"keys\":null\x7d\n" }
    ∧ (handler sampleEnv [originE] notFound "/jwk-aggregator" T0 T0 State.init).1
      = { status := 200, contentType := some "application/json",
          body := "\x7b\"keys\":null\x7d\n" }
    ∧ (handler sampleEnv [originA, originB, originC] notFound "/jwk-aggregator" T0 T0
        State.init).1.body
      = "\x7b\"keys\":[\x7b\"kid\":\"k1\"\x7d,\x7b\"kid\":\"k3\"\x7d]\x7d\n" := by
  decide

/-! ## C5 -/

/-- C5, counterexample: a request one nanosecond after start-up fills the
cache; at the refresher's first tick, fifteen minutes after start-up, the cache
is one nanosecond short of the window, and the tick issues no GET and leaves
`lastFetch` where the request put it. -/
theorem refresher_tick_skips_fresh :
    Sys.run sampleEnv [originA] (Sys.start T0) [.request (T0 + 1)]
      = some { st := { cache := { Keys := .mk [k1] }, lastFetch := T0 + 1, requests := [originA] },
               now := T0 + 1, wake := T0 + window, ticks := 0 }
    ∧ Sys.run sampleEnv [originA] (Sys.start T0) [.request (T0 + 1), .tick]
      = some { st := { cache := { Keys := .mk [k1] }, lastFetch := T0 + 1, requests := [originA] },
               now := T0 + window, wake := T0 + window + window, ticks := 1 } := by
  decide

/-- C5, amended: a round of `cacheRefresher` calls `fetchKeys`, so it is gated
like any other call: when at least 15 minutes have passed since `lastFetch` it
fetches every origin in order and rewrites `cache` and `lastFetch`; when less
has passed it fetches nothing and leaves the state as it was. -/
theorem refresherRound_gated (env : Env) (origins : List Origin) (wake done : Time)
    (st : State) :
    (window ≤ wake - st.lastFetch →
        (refresherRound env origins wake done st).requests = st.requests ++ origins
        ∧ (refresherRound env origins wake done st).lastFetch = done
        ∧ (refresherRound env origins wake done st).cache.Keys.toList
            = mergedKeys env st.requests origins)
    ∧ (wake - st.lastFetch < window → refresherRound env origins wake done st = st) := by
  unfold refresherRound
  refine ⟨fun h => ?_, fun h => ?_⟩
  · have hst : cacheValid st wake = false := (cacheValid_false_iff st wake).2 h
    have hm := fetchKeys_stale_toList env origins wake done st hst
    rw [fetchKeys_stale env origins wake done st hst] at hm ⊢
    exact ⟨rfl, rfl, hm⟩
  · rw [fetchKeys_fresh env origins wake done st ((cacheValid_iff st wake).2 h)]

/-- Instance of the amended C5: the first tick after an idle start refreshes;
a tick one nanosecond short of the window does not. -/
theorem refresherRound_gated_witness :
    (refresherRound sampleEnv [originA] (T0 + window) (T0 + window) State.init).lastFetch
      = T0 + window
    ∧ refresherRound sampleEnv [originA] (T0 + window) (T0 + window)
        { cache := { Keys := .mk [k1] }, lastFetch := T0 + 1, requests := [originA] }
      = { cache := { Keys := .mk [k1] }, lastFetch := T0 + 1, requests := [originA] } :=
  ⟨((refresherRound_gated sampleEnv [originA] (T0 + window) (T0 + window) State.init).1
      (by decide)).2.1,
   (refresherRound_gated sampleEnv [originA] (T0 + window) (T0 + window)
      { cache := { Keys := .mk [k1] }, lastFetch := T0 + 1, requests := [originA] }).2
      (by decide)⟩

/-! ## C7 -/

theorem Sys.inv_start (t0 : Time) : (Sys.start t0).Inv := by
  have hw := window_eq
  unfold Duration at hw
  unfold Sys.Inv Sys.start
  unfold Duration Time at *
  simp only
  omega

theorem fetchKeys_lastFetch (env : Env) (origins : List Origin) (t : Time) (st : State) :
    ((fetchKeys env origins t t st).2.lastFetch = st.lastFetch ∧ t - st.lastFetch < window)
    ∨ (fetchKeys env origins t t st).2.lastFetch = t := by
  cases hv : cacheValid st t with
  | true =>
    rw [fetchKeys_fresh env origins t t st hv]
    exact Or.inl ⟨rfl, (cacheValid_iff st t).1 hv⟩
  | false =>
    rw [fetchKeys_stale env origins t t st hv]
    exact Or.inr rfl

theorem Sys.inv_step (env : Env) (origins : List Origin) (s s' : Sys) (e : Event)
    (hinv : s.Inv) (hstep : s.step env origins e = some s') : s'.Inv := by
  have hw := window_eq
  obtain ⟨h1, h2, h3⟩ := hinv
  cases e with
  | request t =>
    simp only [Sys.step] at hstep
    split at hstep
    · rename_i ht
      simp only [Option.some.injEq] at hstep
      subst hstep
      have hl := fetchKeys_lastFetch env origins t s.st
      unfold Sys.Inv
      simp only
      unfold Duration Time at *
      refine ⟨ht.2, by omega, fun hk => ?_⟩
      have := h3 hk
      rcases hl with hl | hl
      · rw [hl.1]; exact this
      · rw [hl]; omega
    · exact absurd hstep (by simp)
  | tick =>
    simp only [Sys.step, Option.some.injEq] at hstep
    subst hstep
    have hl := fetchKeys_lastFetch env origins s.wake s.st
    unfold Sys.Inv refresherRound
    simp only
    unfold Duration Time at *
    refine ⟨by omega, by omega, fun _ => ?_⟩
    rcases hl with hl | hl
    · rw [hl.1]; omega
    · rw [hl]; omega

theorem Sys.inv_run (env : Env) (origins : List Origin) (evs : List Event) :
    ∀ s s' : Sys, s.Inv → Sys.run env origins s evs = some s' → s'.Inv := by
  induction evs with
  | nil =>
    intro s s' hinv hrun
    simp only [Sys.run, Option.some.injEq] at hrun
    exact hrun ▸ hinv
  | cons e rest ih =>
    intro s s' hinv hrun
    simp only [Sys.run] at hrun
    cases hs : s.step env origins e with
    | none => rw [hs] at hrun; exact absurd hrun (by simp)
    | some s1 =>
      rw [hs] at hrun
      exact ih s1 s' (Sys.inv_step env origins s s1 e hinv hs) hrun

set_option maxRecDepth 100000 in
/-- C7, counterexample: a request one nanosecond after start-up fills the cache,
the first tick finds it fresh and does nothing, and a request one nanosecond
after that tick sees a cache exactly one interval old, finds it stale and runs
its own aggregation (a second GET to the origin). -/
theorem request_after_tick_aggregates :
    Sys.run sampleEnv [originA] (Sys.start T0) [.request (T0 + 1), .tick]
      = some { st := { cache := { Keys := .mk [k1] }, lastFetch := T0 + 1, requests := [originA] },
               now := T0 + window, wake := T0 + window + window, ticks := 1 }
    ∧ (T0 + window + 1) - (T0 + 1) = window
    ∧ cacheValid { cache := { Keys := .mk [k1] }, lastFetch := T0 + 1, requests := [originA] }
        (T0 + window + 1) = false
    ∧ Sys.run sampleEnv [originA] (Sys.start T0)
        [.request (T0 + 1), .tick, .request (T0 + window + 1)]
      = some { st := { cache := { Keys := .mk [k1] }, lastFetch := T0 + window + 1,
                       requests := [originA, originA] },
               now := T0 + window + 1, wake := T0 + window + window, ticks := 1 } := by
  decide

/-- C7, amended: with background refresh at interval `I` of 15 minutes, in every
run made of refresher ticks and requests, a request arriving after the first
tick (at any time `t` up to the next wake-up) sees a cache whose age is strictly
below `2 * I`; when that age is below
`I` the request fetches nothing, and when it is `I` or more the request runs
its own aggregation over all the origins. -/
theorem request_age_bound (env : Env) (origins : List Origin) (t0 : Time) (evs : List Event)
    (s : Sys) (hrun : Sys.run env origins (Sys.start t0) evs = some s) (hticks : 1 ≤ s.ticks)
    (t : Time) (hwake : t ≤ s.wake) :
    t - s.st.lastFetch < 2 * window
    ∧ (t - s.st.lastFetch < window → (fetchKeys env origins t t s.st).2 = s.st)
    ∧ (window ≤ t - s.st.lastFetch →
        (fetchKeys env origins t t s.st).2.requests = s.st.requests ++ origins
        ∧ (fetchKeys env origins t t s.st).2.lastFetch = t) := by
  obtain ⟨_, _, h3⟩ := Sys.inv_run env origins evs _ s (Sys.inv_start t0) hrun
  have hb := h3 hticks
  refine ⟨?_, fun h => ?_, fun h => ?_⟩
  · unfold Duration Time at *
    omega
  · rw [fetchKeys_fresh env origins t t s.st ((cacheValid_iff s.st t).2 h)]
  · rw [fetchKeys_stale env origins t t s.st ((cacheValid_false_iff s.st t).2 h)]
    exact ⟨rfl, rfl⟩

/-- Instance of the amended C7 at the run of the counterexample: the request one
nanosecond after the first tick sees a cache one interval old. -/
theorem request_age_bound_witness :
    (T0 + window + 1) - (T0 + 1) < 2 * window
    ∧ (fetchKeys sampleEnv [originA] (T0 + window + 1) (T0 + window + 1)
        { cache := { Keys := .mk [k1] }, lastFetch := T0 + 1, requests := [originA] }).2.requests
      = [originA] ++ [originA] :=
  ⟨(request_age_bound sampleEnv [originA] T0 [.request (T0 + 1), .tick]
      { st := { cache := { Keys := .mk [k1] }, lastFetch := T0 + 1, requests := [originA] },
        now := T0 + window, wake := T0 + window + window, ticks := 1 }
      (by decide) (by decide) (T0 + window + 1) (by decide)).1,
   ((request_age_bound sampleEnv [originA] T0 [.request (T0 + 1), .tick]
      { st := { cache := { Keys := .mk [k1] }, lastFetch := T0 + 1, requests := [originA] },
        now := T0 + window, wake := T0 + window + window, ticks := 1 }
      (by decide) (by decide) (T0 + window + 1) (by decide)).2.2 (by decide)).1⟩

/-! ## C8 -/

set_option maxRecDepth 100000 in
/-- C8, the code on the racy schedule: caller 2 passed its freshness check on
the timestamp `T0` of the first aggregation run, whose set is `[k1]`, and the
set it reads through `&cache` is `[k2]`, written by the second run with
timestamp `T0 + 2`; no run wrote the pair it holds. -/
theorem fresh_reader_mixed_pair :
    Conc.exec sampleEnv [originR] (Conc.start T0 3) racySchedule
      = { st := { cache := { Keys := .mk [k2] }, lastFetch := T0 + 2,
                  requests := [originR, originR] },
          now := T0 + 2,
          commits := [({ Keys := .mk [k1] }, T0), ({ Keys := .mk [k2] }, T0 + 2)],
          threads := [.finished { Keys := .mk [k1] } T0, .finished { Keys := .mk [k2] } (T0 + 2),
                      .finished { Keys := .mk [k2] } T0] }
    ∧ ¬ (Conc.exec sampleEnv [originR] (Conc.start T0 3) racySchedule).paired := by
  have h : Conc.exec sampleEnv [originR] (Conc.start T0 3) racySchedule
      = { st := { cache := { Keys := .mk [k2] }, lastFetch := T0 + 2,
                  requests := [originR, originR] },
          now := T0 + 2,
          commits := [({ Keys := .mk [k1] }, T0), ({ Keys := .mk [k2] }, T0 + 2)],
          threads := [.finished { Keys := .mk [k1] } T0, .finished { Keys := .mk [k2] } (T0 + 2),
                      .finished { Keys := .mk [k2] } T0] } := by
    decide
  refine ⟨h, fun hp => ?_⟩
  rw [h] at hp
  have := hp { Keys := .mk [k2] } T0 (by decide)
  revert this
  decide

end JwkAggregator
